import Mathlib

set_option maxRecDepth 8000

/-!
Verification of the markdown-file object store (`src/index.ts`, `src/utils.ts`).

The development shallowly embeds the store: front-matter attribute sets are
association lists of JS-like values, the LRU path cache is an explicit
recency-ordered list with a size budget, the mutually recursive
load/hydrate/lookup methods are embedded as a fuel-indexed mutual recursion,
and external collaborators (file system, front-matter parser, markdown
renderer, glob, pluralize) are supplied as an environment record.
-/

namespace MdDb

/-- JS values as they occur in front-matter attributes, query predicates and
resolved objects (nested objects appear after relation hydration). -/
inductive Value where
  | vNull
  | vBool (b : Bool)
  | vInt (n : Int)
  | vStr (s : String)
  | vArr (items : List Value)
  | vObj (fields : List (String × Value))

/-- JS truthiness, used for `if (!id)` and `if (!object[relName])`. -/
def Value.truthy : Value → Bool
  | .vNull => false
  | .vBool b => b
  | .vInt n => n != 0
  | .vStr s => s != ""
  | .vArr _ => true
  | .vObj _ => true

/-- JS strict equality (`===`).  Primitives compare by value; arrays and
objects compare by reference, and two separately constructed composite values
are never the same reference, so the embedding compares them as unequal. -/
def strictEq : Value → Value → Bool
  | .vNull, .vNull => true
  | .vBool a, .vBool b => a == b
  | .vInt a, .vInt b => a == b
  | .vStr a, .vStr b => a == b
  | _, _ => false

/-- `obj[k] === v` where a key absent from `obj` reads as `undefined`,
which is strictly equal to no defined value. -/
def strictEqOpt (a : Option Value) (v : Value) : Bool :=
  match a with
  | none => false
  | some w => strictEq w v

mutual

/-- JS string coercion as in template literals (`${v}`). -/
def jsToString : Value → String
  | .vNull => "null"
  | .vBool b => if b then "true" else "false"
  | .vInt n => toString n
  | .vStr s => s
  | .vArr xs => jsToStringList xs
  | .vObj _ => "[object Object]"

def jsToStringList : List Value → String
  | [] => ""
  | [x] => jsToString x
  | x :: y :: xs => jsToString x ++ "," ++ jsToStringList (y :: xs)

end

mutual

/-- `JSON.stringify`, used by the cache's `sizeCalculation`. -/
def jsonOfValue : Value → String
  | .vNull => "null"
  | .vBool b => if b then "true" else "false"
  | .vInt n => toString n
  | .vStr s => "\"" ++ s ++ "\""
  | .vArr xs => "[" ++ jsonOfList xs ++ "]"
  | .vObj fs => "\x7b" ++ jsonOfFields fs ++ "\x7d"

def jsonOfList : List Value → String
  | [] => ""
  | [x] => jsonOfValue x
  | x :: y :: xs => jsonOfValue x ++ "," ++ jsonOfList (y :: xs)

def jsonOfFields : List (String × Value) → String
  | [] => ""
  | [kv] => "\"" ++ kv.1 ++ "\":" ++ jsonOfValue kv.2
  | kv :: kv2 :: xs => "\"" ++ kv.1 ++ "\":" ++ jsonOfValue kv.2 ++ "," ++ jsonOfFields (kv2 :: xs)

end

/-- A JS object: an association list of fields in insertion order.
Parsed/resolved objects (`ParsedObject`) are such objects. -/
abbrev ParsedObject := List (String × Value)

/-- Property read: first binding of the key, `none` for `undefined`. -/
def objGet (o : ParsedObject) (k : String) : Option Value :=
  match o with
  | [] => none
  | kv :: rest => if kv.1 = k then some kv.2 else objGet rest k

/-- Property write, JS semantics: an existing key keeps its position and is
updated; a new key is appended. -/
def objSet (o : ParsedObject) (k : String) (v : Value) : ParsedObject :=
  match o with
  | [] => [(k, v)]
  | kv :: rest => if kv.1 = k then (k, v) :: rest else kv :: objSet rest k v

/-- Association-list read (for `Record<string, T>` fields). -/
def listGet {α : Type} (l : List (String × α)) (k : String) : Option α :=
  match l with
  | [] => none
  | kv :: rest => if kv.1 = k then some kv.2 else listGet rest k

/-- Association-list write. -/
def listSet {α : Type} (l : List (String × α)) (k : String) (v : α) : List (String × α) :=
  match l with
  | [] => [(k, v)]
  | kv :: rest => if kv.1 = k then (k, v) :: rest else kv :: listSet rest k v

/-- Association-list delete (JS `delete rec[k]`). -/
def listEraseKey {α : Type} (l : List (String × α)) (k : String) : List (String × α) :=
  match l with
  | [] => []
  | kv :: rest => if kv.1 = k then rest else kv :: listEraseKey rest k

/-- `path.basename`: the component after the last separator. -/
def basename (file : String) : String :=
  String.mk (((file.data.reverse).takeWhile (fun c => c ≠ '/')).reverse)

/-- Strip a leading ordinal: one or more digits followed by a dash. -/
def dropOrdinalDashes (s : String) : String :=
  let cs := s.data
  let ds := cs.takeWhile Char.isDigit
  match cs.drop ds.length with
  | '-' :: rest => if ds = [] then s else String.mk rest
  | _ => s

/-- Strip a trailing `.md` extension. -/
def dropMdExt (s : String) : String :=
  if s.data.reverse.take 3 = ['d', 'm', '.'] then String.mk (s.data.take (s.data.length - 3)) else s

/-- `fileNameToSlug` from `src/utils.ts`. -/
def fileNameToSlug (file : String) : String :=
  dropMdExt (dropOrdinalDashes (basename file))

/-- The type part of a property schema: a primitive union (`{type: [...]}`)
or an array with an item type. -/
inductive PropType where
  | prim (types : List String)
  | arr (item : PropType)

/-- One property schema: its type together with the `nullable` flag. -/
structure PropSchema where
  ptype : PropType
  nullable : Bool

/-- `ID_SCHEMA_TYPE = {type: ['string', 'integer']}` (no `nullable` key,
which JS reads as falsy). -/
def idSchemaType : PropSchema :=
  ⟨.prim ["string", "integer"], false⟩

/-- An object schema as the store consumes it: `properties` and `required`. -/
structure Schema where
  properties : List (String × PropSchema)
  required : List String

/-- `typeof`-style classification used by schema type checking. -/
def jsTypeName : Value → String
  | .vNull => "null"
  | .vBool _ => "boolean"
  | .vInt _ => "integer"
  | .vStr _ => "string"
  | .vArr _ => "array"
  | .vObj _ => "object"

/-- Does a (non-null) value satisfy a type description? An integer also
satisfies `number`. -/
def matchesType : PropType → Value → Bool
  | .prim ts, v => ts.contains (jsTypeName v) || (ts.contains "number" && jsTypeName v == "integer")
  | .arr item, .vArr xs => xs.all (fun x => matchesType item x)
  | .arr _, _ => false

/-- Does a value satisfy a property schema?  `null` is allowed exactly when
the property is nullable. -/
def matchesProp (p : PropSchema) (v : Value) : Bool :=
  match v with
  | .vNull => p.nullable
  | _ => matchesType p.ptype v

/-- The validator's structured error list for a candidate attribute set:
one entry per missing required key, one per present property whose value
fails its property schema.  Validation succeeds exactly when this is empty. -/
def validationErrors (sch : Schema) (m : ParsedObject) : List String :=
  (sch.required.filter (fun k => (objGet m k).isNone)).map (fun k => "required:" ++ k) ++
    (m.filter (fun kv =>
      match listGet sch.properties kv.1 with
      | none => false
      | some p => !matchesProp p kv.2)).map (fun kv => "type:" ++ kv.1)

/-- `sizeCalculation`: the length of the serialized entry. -/
def sizeOfEntry (o : ParsedObject) : Nat :=
  (jsonOfValue (.vObj o)).length

/-- The bounded primary cache: entries most-recently-used first. -/
structure LRU where
  entries : List (String × ParsedObject)

/-- `cache.get`: on a hit the entry also becomes most recently used. -/
def lruGet (c : LRU) (k : String) : Option ParsedObject × LRU :=
  match c.entries.find? (fun e => e.1 == k) with
  | none => (none, c)
  | some kv => (some kv.2, ⟨(k, kv.2) :: c.entries.filter (fun e => !(e.1 == k))⟩)

/-- Evicting least-recently-used entries until the total size fits the
budget keeps exactly the longest recency prefix whose cumulative size is
within the budget. -/
def lruFit (budget : Nat) : List (String × ParsedObject) → List (String × ParsedObject)
  | [] => []
  | e :: rest =>
      if sizeOfEntry e.2 ≤ budget then e :: lruFit (budget - sizeOfEntry e.2) rest else []

/-- `cache.set`: an entry larger than the whole budget is not stored;
otherwise it is inserted as most recent and older entries are evicted until
the total size is within the budget. -/
def lruSet (maxSize : Nat) (c : LRU) (k : String) (v : ParsedObject) : LRU :=
  if sizeOfEntry v > maxSize then c
  else ⟨lruFit maxSize ((k, v) :: c.entries.filter (fun e => !(e.1 == k)))⟩

/-- `DEFAULT_MAX_CACHE_SIZE`. -/
def DEFAULT_MAX_CACHE_SIZE : Nat := 64 * 1024 * 1024

/-- A relation declaration.  The kind is kept as the runtime string so that
the registration-time kind check and hydration's defensive branch are
meaningful. -/
structure Relation where
  relType : String
  objType : String
  required : Bool

def hasManyKind : String := "hasMany"

def hasOneKind : String := "hasOne"

/-- A registered type: directory, compiled (here: stored) schema, relations. -/
structure ObjectType where
  dirName : String
  schema : Schema
  relations : List (String × Relation)

/-- The store's mutable state. -/
structure DBState where
  objectTypes : List (String × ObjectType)
  cacheByFile : LRU
  cacheById : List (String × String)
  filenameCache : List (String × List String)
  objsInHydration : List String

/-- The freshly constructed store. -/
def initialState : DBState :=
  ⟨[], ⟨[]⟩, [], [], []⟩

/-- The immutable context of a store: constructor options resolved at
construction time, plus the external collaborators. -/
structure Env where
  baseDir : String
  maxCacheSize : Nat
  fs : String → Option String
  frontMatterF : String → List (String × Value) × String
  markedParse : String → String
  globFiles : String → List String
  pluralize : String → String

/-- `opts.maxCacheSize ?? DEFAULT_MAX_CACHE_SIZE` in the constructor. -/
def resolveMaxCacheSize (o : Option Nat) : Nat :=
  o.getD DEFAULT_MAX_CACHE_SIZE

/-- `path.join`. -/
def pathJoin (a b : String) : String :=
  a ++ "/" ++ b

/-- The distinguishable failures the store can raise. -/
inductive DBError where
  | outOfFuel
  | noSuchType (type : String)
  | reservedKeyId
  | unknownRelationKind (kind : String)
  | relationNameCollision (relName : String)
  | validationError (errs : List String)
  | missingId (type file : String)
  | notFound (type : String) (id : Value)
  | ioError (file : String)
  | notIterable (relName : String)
  | unsupportedRelationKind (kind : String)

/-- The per-relation schema augmentation step: the generated property is an
id-typed value for HasOne, an array of id-typed values for HasMany, and its
`nullable` flag is set to the double negation of the `required` flag. -/
def relationProp (rel : Relation) : PropSchema :=
  let base := if rel.relType == hasManyKind then PropSchema.mk (.arr idSchemaType.ptype) false else idSchemaType
  { base with nullable := rel.required }

/-- The relation loop of `addObjectType`, acting on the private copy's
property map. -/
def addRelationProps (props : List (String × PropSchema)) :
    List (String × Relation) → Except DBError (List (String × PropSchema))
  | [] => .ok props
  | (relName, rel) :: rest =>
      if !(rel.relType == hasManyKind || rel.relType == hasOneKind) then
        .error (.unknownRelationKind rel.relType)
      else if (listGet props relName).isSome then
        .error (.relationNameCollision relName)
      else
        addRelationProps (listSet props relName (relationProp rel)) rest

/-- Options of `addObjectType`. -/
structure AddObjectTypeOpts where
  dirName : Option String
  relations : Option (List (String × Relation))

/-- `addObjectType(type, schema, opts)`: derive the directory name, reject a
schema that already declares `id`, inject the generated `id` property and
mark it required, inject one generated property per declared relation, and
store the resulting type descriptor.  All augmentation acts on a deep copy
of the caller's schema (value semantics here; see the heap model below for
the aliasing claim). -/
def addObjectType (env : Env) (s : DBState) (type : String) (schema : Schema)
    (opts : AddObjectTypeOpts) : Except DBError Unit × DBState :=
  let dirName := opts.dirName.getD (env.pluralize type)
  if (listGet schema.properties "id").isSome then
    (.error .reservedKeyId, s)
  else
    let schema1 : Schema :=
      { properties := listSet schema.properties "id" idSchemaType,
        required := schema.required ++ ["id"] }
    match addRelationProps schema1.properties (opts.relations.getD []) with
    | .error e => (.error e, s)
    | .ok props =>
        let ot : ObjectType :=
          { dirName := dirName,
            schema := { properties := props, required := schema1.required },
            relations := opts.relations.getD [] }
        (.ok (), { s with objectTypes := listSet s.objectTypes type ot })

/-- A heap of schema objects, for reasoning about which schema object the
registration code mutates.  References are allocation indices. -/
structure SchemaHeap where
  cells : List (Nat × Schema)
  next : Nat

def heapRead (h : SchemaHeap) (r : Nat) : Option Schema :=
  match h.cells.find? (fun c => c.1 == r) with
  | none => none
  | some c => some c.2

/-- `cloneDeep`: allocate a fresh schema object with a copied value. -/
def heapAlloc (h : SchemaHeap) (sch : Schema) : Nat × SchemaHeap :=
  (h.next, ⟨(h.next, sch) :: h.cells, h.next + 1⟩)

def heapWrite (h : SchemaHeap) (r : Nat) (f : Schema → Schema) : SchemaHeap :=
  ⟨h.cells.map (fun c => if c.1 == r then (c.1, f c.2) else c), h.next⟩

/-- The relation loop with every mutation performed as a heap write against
the clone's reference. -/
def addRelationPropsRef (h : SchemaHeap) (r : Nat) :
    List (String × Relation) → Except DBError Unit × SchemaHeap
  | [] => (.ok (), h)
  | (relName, rel) :: rest =>
      if !(rel.relType == hasManyKind || rel.relType == hasOneKind) then
        (.error (.unknownRelationKind rel.relType), h)
      else
        match heapRead h r with
        | none => (.error (.relationNameCollision relName), h)
        | some sch =>
            if (listGet sch.properties relName).isSome then
              (.error (.relationNameCollision relName), h)
            else
              addRelationPropsRef
                (heapWrite h r (fun sch => { sch with properties := listSet sch.properties relName (relationProp rel) }))
                r rest

/-- `addObjectType` with the caller's schema given as a heap reference:
the code first rebinds its local variable to a deep clone and then performs
every mutation against that clone. -/
def addObjectTypeRef (env : Env) (s : DBState) (h : SchemaHeap) (type : String)
    (schemaRef : Nat) (opts : AddObjectTypeOpts) : (Except DBError Unit × DBState) × SchemaHeap :=
  match heapRead h schemaRef with
  | none => ((.error .reservedKeyId, s), h)
  | some callerSchema =>
      let dirName := opts.dirName.getD (env.pluralize type)
      let (r, h) := heapAlloc h callerSchema
      match heapRead h r with
      | none => ((.error .reservedKeyId, s), h)
      | some sch =>
          if (listGet sch.properties "id").isSome then
            ((.error .reservedKeyId, s), h)
          else
            let h := heapWrite h r (fun sch =>
              { sch with properties := listSet sch.properties "id" idSchemaType })
            let h := heapWrite h r (fun sch =>
              { sch with required := sch.required ++ ["id"] })
            match addRelationPropsRef h r (opts.relations.getD []) with
            | (.error e, h) => ((.error e, s), h)
            | (.ok _, h) =>
                match heapRead h r with
                | none => ((.error .reservedKeyId, s), h)
                | some finalSchema =>
                    let ot : ObjectType :=
                      { dirName := dirName, schema := finalSchema,
                        relations := opts.relations.getD [] }
                    ((.ok (), { s with objectTypes := listSet s.objectTypes type ot }), h)

/-- `getCachedObjectByFile`: consult the primary cache (a hit refreshes
recency). -/
def getCachedObjectByFile (s : DBState) (file : String) : Option ParsedObject × DBState :=
  match lruGet s.cacheByFile file with
  | (r, c) => (r, { s with cacheByFile := c })

/-- `getCachedObjectById`: consult the secondary (type,id) index; a stale
entry (present in the index, evicted from the primary cache) is deleted. -/
def getCachedObjectById (s : DBState) (type : String) (id : Value) : Option ParsedObject × DBState :=
  let cacheKey := type ++ "-" ++ jsToString id
  match listGet s.cacheById cacheKey with
  | none => (none, s)
  | some filePath =>
      if filePath == "" then (none, s)
      else
        match getCachedObjectByFile s filePath with
        | (some obj, s) => (some obj, s)
        | (none, s) => (none, { s with cacheById := listEraseKey s.cacheById cacheKey })

/-- `getFilesForType`: reject an unregistered type; on first use glob the
type's directory and memoize the file list. -/
def getFilesForType (env : Env) (s : DBState) (type : String) :
    Except DBError (List String) × DBState :=
  match listGet s.objectTypes type with
  | none => (.error (.noSuchType type), s)
  | some ot =>
      match listGet s.filenameCache type with
      | some files => (.ok files, s)
      | none =>
          let files := env.globFiles (pathJoin (pathJoin env.baseDir ot.dirName) "**/*.md")
          (.ok files, { s with filenameCache := listSet s.filenameCache type files })

mutual

/-- `getByFile(type, mdFile)`: primary-cache hit short-circuits everything;
otherwise check registration, read, parse, validate, require a truthy id,
render, assemble, hydrate, then cache. -/
def getByFile (env : Env) : Nat → DBState → String → String →
    Except DBError ParsedObject × DBState
  | 0, s, _, _ => (.error .outOfFuel, s)
  | fuel + 1, s, type, mdFile =>
    match getCachedObjectByFile s mdFile with
    | (some obj, s) => (.ok obj, s)
    | (none, s) =>
      match listGet s.objectTypes type with
      | none => (.error (.noSuchType type), s)
      | some ot =>
        match env.fs mdFile with
        | none => (.error (.ioError mdFile), s)
        | some fileContent =>
          match env.frontMatterF fileContent with
          | (attributes, body) =>
            let metadata := attributes
            match validationErrors ot.schema metadata with
            | e :: es => (.error (.validationError (e :: es)), s)
            | [] =>
              let idv := (objGet metadata "id").getD .vNull
              if !idv.truthy then (.error (.missingId type mdFile), s)
              else
                let html := env.markedParse body
                let obj0 :=
                  objSet (objSet (objSet (objSet metadata "id" idv)
                    "_html" (.vStr html)) "_slug" (.vStr (fileNameToSlug mdFile)))
                    "_path" (.vStr mdFile)
                match hydrateRelations env fuel s type obj0 with
                | (.error e, s) => (.error e, s)
                | (.ok obj1, s) =>
                    (.ok obj1, { s with cacheByFile := lruSet env.maxCacheSize s.cacheByFile mdFile obj1 })

/-- `hydrateRelations(type, object)`: short-circuit when the (type,id) key is
already recorded as in hydration; otherwise record it and resolve each
declared relation in order. -/
def hydrateRelations (env : Env) : Nat → DBState → String → ParsedObject →
    Except DBError ParsedObject × DBState
  | 0, s, _, _ => (.error .outOfFuel, s)
  | fuel + 1, s, type, object =>
    match listGet s.objectTypes type with
    | none => (.error (.noSuchType type), s)
    | some ot =>
      let hydrationKey := type ++ "-" ++ jsToString ((objGet object "id").getD .vNull)
      if s.objsInHydration.contains hydrationKey then (.ok object, s)
      else
        hydrateRelLoop env fuel
          { s with objsInHydration := s.objsInHydration ++ [hydrationKey] }
          object ot.relations

/-- The relation loop of `hydrateRelations`: skip a relation whose field is
absent or falsy; resolve HasMany element-wise and HasOne directly; reject any
other declared kind. -/
def hydrateRelLoop (env : Env) : Nat → DBState → ParsedObject →
    List (String × Relation) → Except DBError ParsedObject × DBState
  | 0, s, _, _ => (.error .outOfFuel, s)
  | _ + 1, s, object, [] => (.ok object, s)
  | fuel + 1, s, object, (relName, rel) :: rest =>
    let curv := (objGet object relName).getD .vNull
    if !curv.truthy then hydrateRelLoop env fuel s object rest
    else if rel.relType == hasManyKind then
      match curv with
      | .vArr oldItems =>
        match hydrateManyLoop env fuel s rel.objType oldItems with
        | (.error e, s) => (.error e, s)
        | (.ok newItems, s) =>
            hydrateRelLoop env fuel s (objSet object relName (.vArr newItems)) rest
      | _ => (.error (.notIterable relName), s)
    else if rel.relType == hasOneKind then
      match findById env fuel s rel.objType curv with
      | (.error e, s) => (.error e, s)
      | (.ok o, s) => hydrateRelLoop env fuel s (objSet object relName (.vObj o)) rest
    else (.error (.unsupportedRelationKind rel.relType), s)

/-- The HasMany inner loop: resolve the raw ids in order. -/
def hydrateManyLoop (env : Env) : Nat → DBState → String → List Value →
    Except DBError (List Value) × DBState
  | 0, s, _, _ => (.error .outOfFuel, s)
  | _ + 1, s, _, [] => (.ok [], s)
  | fuel + 1, s, objType, oldItem :: rest =>
    match findById env fuel s objType oldItem with
    | (.error e, s) => (.error e, s)
    | (.ok o, s) =>
      match hydrateManyLoop env fuel s objType rest with
      | (.error e, s) => (.error e, s)
      | (.ok os, s) => (.ok (.vObj o :: os), s)

/-- `findById(type, id)`: secondary-index fast path, then the linear scan of
the type's file list, failing if the scan exhausts the list. -/
def findById (env : Env) : Nat → DBState → String → Value →
    Except DBError ParsedObject × DBState
  | 0, s, _, _ => (.error .outOfFuel, s)
  | fuel + 1, s, type, id =>
    match getCachedObjectById s type id with
    | (some obj, s) => (.ok obj, s)
    | (none, s) =>
      match getFilesForType env s type with
      | (.error e, s) => (.error e, s)
      | (.ok files, s) =>
        match findByIdScan env fuel s type id files with
        | (.error e, s) => (.error e, s)
        | (.ok (some obj), s) => (.ok obj, s)
        | (.ok none, s) => (.error (.notFound type id), s)

/-- The scan loop of `findById`: load each file in list order, stopping at
the first object whose id is strictly equal to the requested one. -/
def findByIdScan (env : Env) : Nat → DBState → String → Value → List String →
    Except DBError (Option ParsedObject) × DBState
  | 0, s, _, _, _ => (.error .outOfFuel, s)
  | _ + 1, s, _, _, [] => (.ok none, s)
  | fuel + 1, s, type, id, mdFile :: rest =>
    match getByFile env fuel s type mdFile with
    | (.error e, s) => (.error e, s)
    | (.ok obj, s) =>
        if strictEq ((objGet obj "id").getD .vNull) id then (.ok (some obj), s)
        else findByIdScan env fuel s type id rest

end

/-- The load loop of `getAllByType`. -/
def getAllLoop (env : Env) (fuel : Nat) (s : DBState) (type : String) :
    List String → Except DBError (List ParsedObject) × DBState
  | [] => (.ok [], s)
  | mdFile :: rest =>
    match getByFile env fuel s type mdFile with
    | (.error e, s) => (.error e, s)
    | (.ok obj, s) =>
      match getAllLoop env fuel s type rest with
      | (.error e, s) => (.error e, s)
      | (.ok objs, s) => (.ok (obj :: objs), s)

/-- `getAllByType(type)`: load every file of the type's list in order. -/
def getAllByType (env : Env) : Nat → DBState → String →
    Except DBError (List ParsedObject) × DBState
  | 0, s, _ => (.error .outOfFuel, s)
  | fuel + 1, s, type =>
    match getFilesForType env s type with
    | (.error e, s) => (.error e, s)
    | (.ok files, s) => getAllLoop env fuel s type files

/-- The inner loop of `find`'s per-object check: a mismatch on any query key
clears the flag, which is never set again. -/
def queryMatches (obj : ParsedObject) : List (String × Value) → Bool → Bool
  | [], m => m
  | (k, v) :: rest, m =>
      queryMatches obj rest (if !strictEqOpt (objGet obj k) v then false else m)

/-- The retention loop of `find`. -/
def findFilterLoop (query : List (String × Value)) : List ParsedObject → List ParsedObject
  | [] => []
  | obj :: rest =>
      if queryMatches obj query true then obj :: findFilterLoop query rest
      else findFilterLoop query rest

/-- `find(type, query)`: materialize the type's objects, then retain those
matching every query key. -/
def find (env : Env) : Nat → DBState → String → List (String × Value) →
    Except DBError (List ParsedObject) × DBState
  | 0, s, _, _ => (.error .outOfFuel, s)
  | fuel + 1, s, type, query =>
    match getAllByType env fuel s type with
    | (.error e, s) => (.error e, s)
    | (.ok objects, s) => (.ok (findFilterLoop query objects), s)

/-- Fixture file system: one article file and one author file. -/
def fixtureFs : String → Option String :=
  fun p =>
    if p == "/b/articles/1-article.md" then some "AF"
    else if p == "/b/authors/1-author.md" then some "UF"
    else none

/-- Fixture front-matter parser for the two file contents. -/
def fixtureFM : String → List (String × Value) × String :=
  fun c =>
    if c == "AF" then
      ([("title", .vStr "A Really Great Article"), ("id", .vInt 1), ("author", .vInt 1)], "abody")
    else if c == "UF" then
      ([("name", .vStr "Jonathan Lipps"), ("id", .vInt 1), ("articles", .vArr [.vInt 1])], "ubody")
    else ([], "")

/-- Fixture glob: each type's directory holds one file. -/
def fixtureGlob : String → List String :=
  fun pat =>
    if pat == "/b/articles/**/*.md" then ["/b/articles/1-article.md"]
    else if pat == "/b/authors/**/*.md" then ["/b/authors/1-author.md"]
    else []

/-- The fixture environment. -/
def fixtureEnv : Env :=
  { baseDir := "/b", maxCacheSize := resolveMaxCacheSize none,
    fs := fixtureFs, frontMatterF := fixtureFM,
    markedParse := fun b => "<p>" ++ b ++ "</p>",
    globFiles := fixtureGlob,
    pluralize := fun t => t ++ "s" }

def articleSchema : Schema :=
  ⟨[("title", ⟨.prim ["string"], false⟩)], ["title"]⟩

def authorSchema : Schema :=
  ⟨[("name", ⟨.prim ["string"], false⟩)], ["name"]⟩

def articleRels : List (String × Relation) :=
  [("author", ⟨hasOneKind, "author", true⟩)]

def authorRels : List (String × Relation) :=
  [("articles", ⟨hasManyKind, "article", true⟩)]

/-- The store after registering the article and author types with their
mutually cyclic relations. -/
def fixtureDB : DBState :=
  (addObjectType fixtureEnv
    (addObjectType fixtureEnv initialState "article" articleSchema ⟨none, some articleRels⟩).2
    "author" authorSchema ⟨none, some authorRels⟩).2

def articleFile : String := "/b/articles/1-article.md"

def authorFile : String := "/b/authors/1-author.md"

/-- The author object as rebuilt during the re-entrant (cycle-closing)
hydration: its `articles` relation still holds the raw id. -/
def rawAuthorObj : ParsedObject :=
  [("name", .vStr "Jonathan Lipps"), ("id", .vInt 1), ("articles", .vArr [.vInt 1]),
   ("_html", .vStr "<p>ubody</p>"), ("_slug", .vStr "author"), ("_path", .vStr authorFile)]

/-- The article object as hydrated inside the author fetch: its `author`
relation is resolved, to the under-hydrated author copy. -/
def hydratedArticleObj : ParsedObject :=
  [("title", .vStr "A Really Great Article"), ("id", .vInt 1), ("author", .vObj rawAuthorObj),
   ("_html", .vStr "<p>abody</p>"), ("_slug", .vStr "article"), ("_path", .vStr articleFile)]

/-- The fully hydrated author: `articles` resolved to embedded articles. -/
def hydratedAuthorObj : ParsedObject :=
  [("name", .vStr "Jonathan Lipps"), ("id", .vInt 1),
   ("articles", .vArr [.vObj hydratedArticleObj]),
   ("_html", .vStr "<p>ubody</p>"), ("_slug", .vStr "author"), ("_path", .vStr authorFile)]

/-- The article object as assembled before hydration, its relation field
still holding the raw id. -/
def rawArticleObj : ParsedObject :=
  [("title", .vStr "A Really Great Article"), ("id", .vInt 1), ("author", .vInt 1),
   ("_html", .vStr "<p>abody</p>"), ("_slug", .vStr "article"), ("_path", .vStr articleFile)]

def noteFile : String := "/n/notes/1-note.md"

/-- A relation-free fixture: one registered type `note` with one file. -/
def noteEnv : Env :=
  { baseDir := "/n", maxCacheSize := resolveMaxCacheSize none,
    fs := fun p => if p == noteFile then some "NF" else none,
    frontMatterF := fun c => if c == "NF" then ([("t", .vStr "x"), ("id", .vInt 1)], "nb") else ([], ""),
    markedParse := fun b => "<p>" ++ b ++ "</p>",
    globFiles := fun pat => if pat == "/n/notes/**/*.md" then [noteFile] else [],
    pluralize := fun t => t ++ "s" }

def noteSchema : Schema :=
  ⟨[("t", ⟨.prim ["string"], false⟩)], ["t"]⟩

def noteDB : DBState :=
  (addObjectType noteEnv initialState "note" noteSchema ⟨none, none⟩).2

/-- The note object produced by loading the note file. -/
def noteObj : ParsedObject :=
  [("t", .vStr "x"), ("id", .vInt 1), ("_html", .vStr "<p>nb</p>"),
   ("_slug", .vStr "note"), ("_path", .vStr noteFile)]

/-- C1: after a successful load of a file that was not in the primary cache,
the secondary (type,id) index is still empty — `getByFile` never writes it —
so the subsequent `findById` for that (type,id) cannot be served from the
secondary index. -/
theorem getByFile_never_populates_cacheById :
    (getByFile noteEnv 10 noteDB "note" noteFile).1 = .ok noteObj ∧
    (getByFile noteEnv 10 noteDB "note" noteFile).2.cacheById = [] ∧
    (getCachedObjectById (getByFile noteEnv 10 noteDB "note" noteFile).2 "note" (.vInt 1)).1 = none := by
  exact ⟨rfl, rfl, rfl⟩

/-- An environment whose cache budget stores nothing, so every load is a
cache miss and re-runs hydration. -/
def zeroCacheEnv : Env :=
  { fixtureEnv with maxCacheSize := 0 }

def zeroCacheLoad1 : Except DBError ParsedObject × DBState :=
  getByFile zeroCacheEnv 30 fixtureDB "author" authorFile

def zeroCacheLoad2 : Except DBError ParsedObject × DBState :=
  getByFile zeroCacheEnv 30 zeroCacheLoad1.2 "author" authorFile

/-- C2: the in-hydration set is not restored when operations return: after a
completed load it still holds the (type,id) keys, and a later load of the
same file (here: a cache miss because nothing fits the budget) is
short-circuited by the completed earlier hydration, returning an object whose
relations are left as raw ids. -/
theorem objsInHydration_persists_after_return :
    (getByFile noteEnv 10 noteDB "note" noteFile).2.objsInHydration = ["note-1"] ∧
    zeroCacheLoad1.1 = .ok hydratedAuthorObj ∧
    zeroCacheLoad1.2.objsInHydration = ["author-1", "article-1"] ∧
    zeroCacheLoad2.1 = .ok rawAuthorObj := by
  exact ⟨rfl, rfl, rfl, rfl⟩

/-- Registration of the article type with its relation not marked required. -/
def articleRelsOptional : List (String × Relation) :=
  [("author", ⟨hasOneKind, "author", false⟩)]

def fixtureDBOptionalRel : DBState :=
  (addObjectType fixtureEnv initialState "article" articleSchema ⟨none, some articleRelsOptional⟩).2

/-- C3: the generated relation property's `nullable` flag equals the
`required` flag — a relation marked required yields a nullable generated
property and an optional relation yields a non-nullable one, the reverse of
"nullable unless required". -/
theorem relation_nullable_follows_required :
    (∀ rel : Relation, (relationProp rel).nullable = rel.required) ∧
    ((listGet fixtureDB.objectTypes "article").map
      (fun ot => listGet ot.schema.properties "author")) =
      some (some ⟨.prim ["string", "integer"], true⟩) ∧
    ((listGet fixtureDBOptionalRel.objectTypes "article").map
      (fun ot => listGet ot.schema.properties "author")) =
      some (some ⟨.prim ["string", "integer"], false⟩) := by
  exact ⟨fun _ => rfl, rfl, rfl⟩

lemma lruGet_of_fst_none (c : LRU) (k : String) (h : (lruGet c k).1 = none) :
    lruGet c k = (none, c) := by
  unfold lruGet at h ⊢
  cases hf : c.entries.find? (fun e => e.1 == k) with
  | none => rfl
  | some kv => rw [hf] at h; simp at h

lemma lruGet_fst_of_set_self (maxSize : Nat) (c : LRU) (k : String) (v : ParsedObject)
    (h : sizeOfEntry v ≤ maxSize) :
    (lruGet (lruSet maxSize c k v) k).1 = some v := by
  have h2 : ¬ (sizeOfEntry v > maxSize) := by omega
  simp only [lruSet, if_neg h2, lruFit, if_pos h, lruGet]
  rw [List.find?_cons_of_pos _ (by simp)]

lemma lruGet_fst_after_hit (c : LRU) (k : String) (v : ParsedObject) (c2 : LRU)
    (h : lruGet c k = (some v, c2)) : (lruGet c2 k).1 = some v := by
  unfold lruGet at h ⊢
  cases hf : c.entries.find? (fun e => e.1 == k) with
  | none => rw [hf] at h; simp at h
  | some kv =>
      rw [hf] at h
      simp only [Prod.mk.injEq, Option.some.injEq] at h
      obtain ⟨hv, hc⟩ := h
      subst hv; subst hc
      rw [List.find?_cons_of_pos _ (by simp)]

/-- A successful load leaves the loaded object in the primary cache under
the file's path, provided the object fits the cache budget. -/
lemma getByFile_ok_cached (env : Env) (fuel : Nat) (s : DBState) (ty f : String)
    (obj : ParsedObject) (s1 : DBState)
    (h1 : getByFile env fuel s ty f = (.ok obj, s1))
    (hsize : sizeOfEntry obj ≤ env.maxCacheSize) :
    (lruGet s1.cacheByFile f).1 = some obj := by
  cases fuel with
  | zero => simp [getByFile] at h1
  | succ fuel =>
    rw [getByFile] at h1
    split at h1
    case _ o s' hc =>
      simp only [Prod.mk.injEq, Except.ok.injEq] at h1
      obtain ⟨ho, hs⟩ := h1
      subst ho; subst hs
      unfold getCachedObjectByFile at hc
      cases hg : lruGet s.cacheByFile f with
      | mk rr cc =>
        rw [hg] at hc
        simp only [Prod.mk.injEq] at hc
        obtain ⟨hr1, hr2⟩ := hc
        subst hr1
        have hcb : s'.cacheByFile = cc := by rw [← hr2]
        rw [hcb]
        exact lruGet_fst_after_hit _ _ _ _ hg
    case _ s' hc =>
      split at h1
      · simp at h1
      · split at h1
        · simp at h1
        · split at h1
          dsimp only at h1
          split at h1
          · simp at h1
          · split at h1
            · simp at h1
            · split at h1
              · simp at h1
              · simp only [Prod.mk.injEq, Except.ok.injEq] at h1
                obtain ⟨ho, hs⟩ := h1
                subst ho; subst hs
                exact lruGet_fst_of_set_self _ _ _ _ hsize

/-- A cache-missing load whose header fails validation returns the
validation error and the state unchanged. -/
lemma getByFile_validation_error (env : Env) (fuel : Nat) (s : DBState) (ty f content : String)
    (ot : ObjectType) (attrs : List (String × Value)) (body : String) (e : String) (es : List String)
    (hmiss : (lruGet s.cacheByFile f).1 = none)
    (hot : listGet s.objectTypes ty = some ot)
    (hfs : env.fs f = some content)
    (hfm : env.frontMatterF content = (attrs, body))
    (herr : validationErrors ot.schema attrs = e :: es) :
    getByFile env (fuel + 1) s ty f = (.error (.validationError (e :: es)), s) := by
  simp only [getByFile, getCachedObjectByFile, lruGet_of_fst_none _ _ hmiss, hot, hfs, hfm, herr]

/-- A cache-missing load whose header validates but whose id is falsy
returns the missing-id error and the state unchanged. -/
lemma getByFile_missing_id (env : Env) (fuel : Nat) (s : DBState) (ty f content : String)
    (ot : ObjectType) (attrs : List (String × Value)) (body : String)
    (hmiss : (lruGet s.cacheByFile f).1 = none)
    (hot : listGet s.objectTypes ty = some ot)
    (hfs : env.fs f = some content)
    (hfm : env.frontMatterF content = (attrs, body))
    (hval : validationErrors ot.schema attrs = [])
    (hid : ((objGet attrs "id").getD .vNull).truthy = false) :
    getByFile env (fuel + 1) s ty f = (.error (.missingId ty f), s) := by
  simp only [getByFile, getCachedObjectByFile, lruGet_of_fst_none _ _ hmiss, hot, hfs, hfm,
    hval, hid, Bool.not_false, if_pos]

lemma validationErrors_ne_nil_of_absent_required (sch : Schema) (m : ParsedObject) (k : String)
    (hreq : k ∈ sch.required) (hm : objGet m k = none) :
    validationErrors sch m ≠ [] := by
  intro hnil
  have hmem : "required:" ++ k ∈ validationErrors sch m := by
    unfold validationErrors
    apply List.mem_append_left
    exact List.mem_map_of_mem _ (List.mem_filter.mpr ⟨hreq, by simp [hm]⟩)
  rw [hnil] at hmem
  exact (List.not_mem_nil _) hmem

/-- The note fixture with the file's header lacking an id attribute. -/
def noIdEnv : Env :=
  { noteEnv with
    fs := fun p => if p == noteFile then some "NI" else none,
    frontMatterF := fun c => if c == "NI" then ([("t", .vStr "x")], "b") else ([], "") }

/-- The note fixture with the file's header carrying an empty-string id,
which passes schema validation (an empty string is a string). -/
def emptyIdEnv : Env :=
  { noteEnv with
    fs := fun p => if p == noteFile then some "EI" else none,
    frontMatterF := fun c => if c == "EI" then ([("t", .vStr "x"), ("id", .vStr "")], "b") else ([], "") }

/-- C4 counterexample: a file whose header lacks the identifier attribute
altogether fails with the validation error (registration added `id` to the
schema's required keys), not with the missing-id error the claim requires. -/
theorem missing_id_header_raises_validationError :
    getByFile noIdEnv 5 noteDB "note" noteFile =
      (.error (.validationError ["required:id"]), noteDB) ∧
    (getByFile noIdEnv 5 noteDB "note" noteFile).1 ≠ .error (.missingId "note" noteFile) := by
  refine ⟨rfl, ?_⟩
  intro h
  rw [show (getByFile noIdEnv 5 noteDB "note" noteFile).1 =
    .error (.validationError ["required:id"]) from rfl] at h
  simp at h

/-- C4 amended: a cache-missing load whose header passes schema validation
but whose id attribute is falsy (absent-after-validation cannot happen; the
falsy cases are values like the empty string or zero) fails with MissingId;
a header with no id attribute at all instead fails with ValidationError,
because registration adds `id` to the schema's required keys. -/
theorem falsy_id_raises_missingId_amended :
    (∀ (env : Env) (fuel : Nat) (s : DBState) (ty f content : String) (ot : ObjectType)
       (attrs : List (String × Value)) (body : String),
      (lruGet s.cacheByFile f).1 = none →
      listGet s.objectTypes ty = some ot →
      env.fs f = some content →
      env.frontMatterF content = (attrs, body) →
      validationErrors ot.schema attrs = [] →
      ((objGet attrs "id").getD .vNull).truthy = false →
      getByFile env (fuel + 1) s ty f = (.error (.missingId ty f), s)) ∧
    (∀ (env : Env) (fuel : Nat) (s : DBState) (ty f content : String) (ot : ObjectType)
       (attrs : List (String × Value)) (body : String),
      (lruGet s.cacheByFile f).1 = none →
      listGet s.objectTypes ty = some ot →
      env.fs f = some content →
      env.frontMatterF content = (attrs, body) →
      objGet attrs "id" = none →
      "id" ∈ ot.schema.required →
      ∃ e es, getByFile env (fuel + 1) s ty f = (.error (.validationError (e :: es)), s)) := by
  constructor
  · intro env fuel s ty f content ot attrs body hmiss hot hfs hfm hval hid
    exact getByFile_missing_id env fuel s ty f content ot attrs body hmiss hot hfs hfm hval hid
  · intro env fuel s ty f content ot attrs body hmiss hot hfs hfm hid hreq
    obtain ⟨e, es, hcons⟩ : ∃ e es, validationErrors ot.schema attrs = e :: es := by
      cases hv : validationErrors ot.schema attrs with
      | nil => exact absurd hv (validationErrors_ne_nil_of_absent_required _ _ _ hreq hid)
      | cons a l => exact ⟨a, l, rfl⟩
    exact ⟨e, es, getByFile_validation_error env fuel s ty f content ot attrs body e es
      hmiss hot hfs hfm hcons⟩

/-- C4 amended, witness: the empty-string-id note file fails with MissingId;
the no-id note file fails with ValidationError. -/
theorem falsy_id_raises_missingId_witness :
    getByFile emptyIdEnv 5 noteDB "note" noteFile = (.error (.missingId "note" noteFile), noteDB) ∧
    (∃ e es, getByFile noIdEnv 5 noteDB "note" noteFile =
      (.error (.validationError (e :: es)), noteDB)) := by
  refine ⟨?_, ?_⟩
  · exact falsy_id_raises_missingId_amended.1 emptyIdEnv 4 noteDB "note" noteFile "EI"
      _ [("t", .vStr "x"), ("id", .vStr "")] "b" rfl rfl rfl rfl rfl rfl
  · exact falsy_id_raises_missingId_amended.2 noIdEnv 4 noteDB "note" noteFile "NI"
      _ [("t", .vStr "x")] "b" rfl rfl rfl rfl rfl (by simp)

/-- C6: once a load of a file has succeeded and the object fits the cache
budget, a second load of the same path — under any environment whatsoever,
in particular one where the file's content has changed or the file is gone,
and under any type argument — returns the very same object, served from the
primary cache. -/
theorem second_load_returns_cached_object (env env2 : Env) (fuel fuel2 : Nat)
    (s : DBState) (ty ty2 f : String) (obj : ParsedObject) (s1 : DBState)
    (h1 : getByFile env fuel s ty f = (.ok obj, s1))
    (hsize : sizeOfEntry obj ≤ env.maxCacheSize) :
    (getByFile env2 (fuel2 + 1) s1 ty2 f).1 = .ok obj := by
  have hc := getByFile_ok_cached env fuel s ty f obj s1 h1 hsize
  obtain ⟨c2, hfull⟩ : ∃ c2, lruGet s1.cacheByFile f = (some obj, c2) :=
    ⟨(lruGet s1.cacheByFile f).2, Prod.ext hc rfl⟩
  simp only [getByFile, getCachedObjectByFile, hfull]

/-- The state after the first successful load of the note file. -/
def noteLoaded : DBState :=
  (getByFile noteEnv 10 noteDB "note" noteFile).2

/-- The note fixture after the underlying file has been deleted. -/
def noteFsGoneEnv : Env :=
  { noteEnv with fs := fun _ => none }

/-- C6 witness: load the note file, delete every file, load again — the
second load still returns the originally loaded object. -/
theorem second_load_returns_cached_object_witness :
    (getByFile noteFsGoneEnv 1 noteLoaded "note" noteFile).1 = .ok noteObj :=
  second_load_returns_cached_object noteEnv noteFsGoneEnv 10 0 noteDB "note" "note"
    noteFile noteObj noteLoaded rfl (by decide)

/-- C7: a load of a file that is not in the primary cache and whose header
fails schema validation raises the validation error carrying the validator's
error list, and leaves the store's state — in particular both caches —
exactly as it was. -/
theorem validation_failure_raises_and_leaves_caches_unchanged (env : Env) (fuel : Nat)
    (s : DBState) (ty f content : String) (ot : ObjectType)
    (attrs : List (String × Value)) (body : String) (e : String) (es : List String)
    (hmiss : (lruGet s.cacheByFile f).1 = none)
    (hot : listGet s.objectTypes ty = some ot)
    (hfs : env.fs f = some content)
    (hfm : env.frontMatterF content = (attrs, body))
    (herr : validationErrors ot.schema attrs = e :: es) :
    getByFile env (fuel + 1) s ty f = (.error (.validationError (e :: es)), s) ∧
    (getByFile env (fuel + 1) s ty f).2.cacheByFile = s.cacheByFile ∧
    (getByFile env (fuel + 1) s ty f).2.cacheById = s.cacheById := by
  have h := getByFile_validation_error env fuel s ty f content ot attrs body e es
    hmiss hot hfs hfm herr
  exact ⟨h, by rw [h], by rw [h]⟩

/-- The note fixture with the file's header carrying a non-string `t`,
failing schema validation. -/
def badTypeEnv : Env :=
  { noteEnv with
    fs := fun p => if p == noteFile then some "BT" else none,
    frontMatterF := fun c => if c == "BT" then ([("t", .vInt 5), ("id", .vInt 1)], "b") else ([], "") }

/-- C7 witness: the ill-typed note file raises the validation error and the
state is untouched. -/
theorem validation_failure_witness :
    getByFile badTypeEnv 5 noteDB "note" noteFile = (.error (.validationError ["type:t"]), noteDB) ∧
    (getByFile badTypeEnv 5 noteDB "note" noteFile).2.cacheByFile = noteDB.cacheByFile ∧
    (getByFile badTypeEnv 5 noteDB "note" noteFile).2.cacheById = noteDB.cacheById :=
  validation_failure_raises_and_leaves_caches_unchanged badTypeEnv 4 noteDB "note" noteFile "BT"
    _ [("t", .vInt 5), ("id", .vInt 1)] "b" "type:t" [] rfl rfl rfl rfl rfl

/-- C10: when a path is present in the primary cache, `getByFile` returns
the cached object for an arbitrary type argument — the store's registered
types are arbitrary here, so the type may be unregistered or different from
the one the object was loaded under — and raises no unregistered-type
error; the registration check runs only on a cache miss. -/
theorem cache_hit_bypasses_type_registration_check (env : Env) (fuel : Nat) (s : DBState)
    (f : String) (obj : ParsedObject) (c2 : LRU) (ty : String)
    (h : lruGet s.cacheByFile f = (some obj, c2)) :
    getByFile env (fuel + 1) s ty f = (.ok obj, { s with cacheByFile := c2 }) := by
  simp only [getByFile, getCachedObjectByFile, h]

/-- C10 witness: with the note file cached, `getByFile` under the never
registered type name `ghost` still returns the cached note object. -/
theorem cache_hit_bypasses_type_registration_check_witness :
    listGet noteLoaded.objectTypes "ghost" = none ∧
    getByFile noteFsGoneEnv 1 noteLoaded "ghost" noteFile =
      (.ok noteObj, { noteLoaded with cacheByFile := (lruGet noteLoaded.cacheByFile noteFile).2 }) :=
  ⟨rfl, cache_hit_bypasses_type_registration_check noteFsGoneEnv 0 noteLoaded noteFile
    noteObj _ "ghost" rfl⟩

lemma queryMatches_false (obj : ParsedObject) (q : List (String × Value)) :
    queryMatches obj q false = false := by
  induction q with
  | nil => rfl
  | cons kv rest ih =>
      obtain ⟨k, v⟩ := kv
      simp only [queryMatches]
      split <;> exact ih

lemma queryMatches_true_eq_all (obj : ParsedObject) (q : List (String × Value)) :
    queryMatches obj q true = q.all (fun kv => strictEqOpt (objGet obj kv.1) kv.2) := by
  induction q with
  | nil => rfl
  | cons kv rest ih =>
      obtain ⟨k, v⟩ := kv
      simp only [queryMatches, List.all_cons]
      cases h : strictEqOpt (objGet obj k) v with
      | true => simpa [h] using ih
      | false => simp [h, queryMatches_false]

lemma findFilterLoop_eq_filter (q : List (String × Value)) (l : List ParsedObject) :
    findFilterLoop q l = l.filter (fun o => queryMatches o q true) := by
  induction l with
  | nil => rfl
  | cons o rest ih =>
      simp only [findFilterLoop, List.filter_cons]
      cases h : queryMatches o q true <;> simp [h, ih]

lemma findFilterLoop_nil_query (l : List ParsedObject) :
    findFilterLoop [] l = l := by
  induction l with
  | nil => rfl
  | cons o rest ih => simp [findFilterLoop, queryMatches, ih]

/-- C8: `find` returns exactly the materialized objects of the type on which
every query key reads a strictly equal value (conjunction over all query
keys; a key the object lacks reads as `undefined` and never matches, see
`strictEqOpt`); the empty query returns every object. -/
theorem find_conjunctive_equality_filter (env : Env) (fuel : Nat) (s : DBState) (ty : String)
    (q : List (String × Value)) (objs : List ParsedObject) (s1 : DBState)
    (h : getAllByType env fuel s ty = (.ok objs, s1)) :
    find env (fuel + 1) s ty q =
      (.ok (objs.filter (fun o => q.all (fun kv => strictEqOpt (objGet o kv.1) kv.2))), s1) ∧
    (∀ o : ParsedObject, (q.all (fun kv => strictEqOpt (objGet o kv.1) kv.2) = true) ↔
      (∀ kv ∈ q, strictEqOpt (objGet o kv.1) kv.2 = true)) ∧
    find env (fuel + 1) s ty [] = (.ok objs, s1) := by
  refine ⟨?_, ?_, ?_⟩
  · simp only [find, h, findFilterLoop_eq_filter]
    rw [List.filter_congr (fun o _ => queryMatches_true_eq_all o q)]
  · intro o
    exact List.all_eq_true
  · simp only [find, h, findFilterLoop_nil_query]

/-- C8 witness: querying the author type with a name that matches and an id
that does not yields no results (conjunctive semantics). -/
theorem find_conjunctive_equality_filter_witness :
    find fixtureEnv 30 fixtureDB "author" [("name", .vStr "Jonathan Lipps"), ("id", .vInt 200)] =
      (.ok [], (getAllByType fixtureEnv 29 fixtureDB "author").2) :=
  ((find_conjunctive_equality_filter fixtureEnv 29 fixtureDB "author"
      [("name", .vStr "Jonathan Lipps"), ("id", .vInt 200)] [hydratedAuthorObj]
      (getAllByType fixtureEnv 29 fixtureDB "author").2 rfl).1).trans rfl

lemma find?_key_map_write (l : List (Nat × Schema)) (w r : Nat) (f : Schema → Schema)
    (hne : r ≠ w) :
    (l.map (fun c => if c.1 == w then (c.1, f c.2) else c)).find? (fun c => c.1 == r) =
      l.find? (fun c => c.1 == r) := by
  induction l with
  | nil => rfl
  | cons c t ih =>
      by_cases hcw : c.1 = w
      · have hb : (c.1 == w) = true := by simp [hcw]
        have hbr : (c.1 == r) = false := by simp [hcw]; exact fun hh => hne hh.symm
        simp only [List.map, List.find?, hb, if_true, hbr]
        simpa [hbr] using ih
      · have hb : (c.1 == w) = false := by simp [hcw]
        simp only [List.map, List.find?, hb, if_false]
        cases hr : (c.1 == r) with
        | true => simp [List.find?, hr]
        | false => simpa [List.find?, hr] using ih

lemma heapRead_write_ne (h : SchemaHeap) (w r : Nat) (f : Schema → Schema) (hne : r ≠ w) :
    heapRead (heapWrite h w f) r = heapRead h r := by
  unfold heapRead heapWrite
  rw [find?_key_map_write _ _ _ _ hne]

lemma addRelationPropsRef_heap_read (rels : List (String × Relation)) :
    ∀ (h : SchemaHeap) (w q : Nat), q ≠ w →
      heapRead (addRelationPropsRef h w rels).2 q = heapRead h q := by
  induction rels with
  | nil => intro h w q hne; rfl
  | cons kv rest ih =>
      intro h w q hne
      obtain ⟨relName, rel⟩ := kv
      simp only [addRelationPropsRef]
      split
      · rfl
      · cases hr : heapRead h w with
        | none => rfl
        | some sch =>
            dsimp only
            split
            · rfl
            · rw [ih _ _ _ hne, heapRead_write_ne _ _ _ _ hne]

/-- C9: registration never mutates the caller's schema object.  With schema
objects modelled as heap references, `addObjectType` applied to a reference
into the heap first allocates a deep clone and performs every augmentation
write against the clone, so reading the caller's reference afterwards yields
exactly what was there before, on every path (success or failure). -/
theorem addObjectType_leaves_caller_schema_unmodified (env : Env) (s : DBState)
    (h : SchemaHeap) (type : String) (r : Nat) (opts : AddObjectTypeOpts)
    (hr : r < h.next) :
    heapRead (addObjectTypeRef env s h type r opts).2 r = heapRead h r := by
  have hne : r ≠ h.next := Nat.ne_of_lt hr
  unfold addObjectTypeRef
  split
  · rfl
  case _ callerSchema hcall =>
    dsimp only [heapAlloc]
    have halloc : heapRead ⟨(h.next, callerSchema) :: h.cells, h.next + 1⟩ h.next =
        some callerSchema := by
      simp [heapRead, List.find?]
    have hb : (h.next == r) = false := by
      simp only [beq_eq_false_iff_ne, ne_eq]
      exact fun hh => hne hh.symm
    have hralloc : heapRead ⟨(h.next, callerSchema) :: h.cells, h.next + 1⟩ r = heapRead h r := by
      simp [heapRead, List.find?, hb]
    rw [halloc]
    dsimp only
    split
    · exact hralloc
    · rcases hrel : addRelationPropsRef
        (heapWrite (heapWrite ⟨(h.next, callerSchema) :: h.cells, h.next + 1⟩ h.next fun sch =>
          { sch with properties := listSet sch.properties "id" idSchemaType })
          h.next fun sch => { sch with required := sch.required ++ ["id"] })
        h.next (opts.relations.getD []) with ⟨exc, h2⟩
      have h2eq : (addRelationPropsRef
          (heapWrite (heapWrite ⟨(h.next, callerSchema) :: h.cells, h.next + 1⟩ h.next fun sch =>
            { sch with properties := listSet sch.properties "id" idSchemaType })
            h.next fun sch => { sch with required := sch.required ++ ["id"] })
          h.next (opts.relations.getD [])).2 = h2 := by rw [hrel]
      have hh2 : heapRead h2 r = heapRead h r := by
        rw [← h2eq, addRelationPropsRef_heap_read _ _ _ _ hne, heapRead_write_ne _ _ _ _ hne,
            heapRead_write_ne _ _ _ _ hne]
        exact hralloc
      cases exc with
      | error e => exact hh2
      | ok a =>
          dsimp only
          cases hfin : heapRead h2 h.next with
          | none => exact hh2
          | some finalSchema => exact hh2

/-- A one-cell heap holding the caller's article schema at reference 0. -/
def callerHeap : SchemaHeap :=
  ⟨[(0, articleSchema)], 1⟩

/-- C9 witness: registering the article type with its relations leaves the
caller's schema cell untouched. -/
theorem addObjectType_leaves_caller_schema_unmodified_witness :
    heapRead callerHeap 0 = some articleSchema ∧
    heapRead (addObjectTypeRef fixtureEnv initialState callerHeap "article" 0
      ⟨none, some articleRels⟩).2 0 = heapRead callerHeap 0 :=
  ⟨rfl, addObjectType_leaves_caller_schema_unmodified fixtureEnv initialState callerHeap
    "article" 0 ⟨none, some articleRels⟩ (by decide)⟩

lemma objGet_objSet_self (o : ParsedObject) (k : String) (v : Value) :
    objGet (objSet o k v) k = some v := by
  induction o with
  | nil => simp [objSet, objGet]
  | cons kv rest ih =>
      by_cases h : kv.1 = k
      · simp [objSet, objGet, h]
      · simp [objSet, objGet, h, ih]

lemma objGet_objSet_ne (o : ParsedObject) (k : String) (v : Value) (r : String) (h : r ≠ k) :
    objGet (objSet o k v) r = objGet o r := by
  have hkr : ¬ (k = r) := fun hh => h hh.symm
  induction o with
  | nil => simp [objSet, objGet, hkr]
  | cons kv rest ih =>
      by_cases hk : kv.1 = k
      · simp [objSet, objGet, hk, hkr]
      · by_cases hr : kv.1 = r
        · simp [objSet, objGet, hk, hr, h]
        · simp [objSet, objGet, hk, hr, ih]

lemma listGet_listSet_self {α : Type} (l : List (String × α)) (k : String) (v : α) :
    listGet (listSet l k v) k = some v := by
  induction l with
  | nil => simp [listSet, listGet]
  | cons kv rest ih =>
      by_cases h : kv.1 = k
      · simp [listSet, listGet, h]
      · simp [listSet, listGet, h, ih]

lemma listGet_listSet_ne {α : Type} (l : List (String × α)) (k : String) (v : α) (r : String)
    (h : r ≠ k) :
    listGet (listSet l k v) r = listGet l r := by
  have hkr : ¬ (k = r) := fun hh => h hh.symm
  induction l with
  | nil => simp [listSet, listGet, hkr]
  | cons kv rest ih =>
      by_cases hk : kv.1 = k
      · simp [listSet, listGet, hk, hkr]
      · by_cases hr : kv.1 = r
        · simp [listSet, listGet, hk, hr, h]
        · simp [listSet, listGet, hk, hr, ih]

lemma contains_eq_decide_mem (l : List String) (x : String) :
    l.contains x = decide (x ∈ l) := by
  induction l with
  | nil => rfl
  | cons a rest ih => by_cases h : a = x <;> simp [List.contains_cons, h, ih]

/-- The object assembled by a fresh load, before hydration: the header
attributes with id, rendered body, slug and path fields. -/
def loadedObject (env : Env) (attrs : List (String × Value)) (body f : String) : ParsedObject :=
  objSet (objSet (objSet (objSet attrs "id" ((objGet attrs "id").getD .vNull))
    "_html" (.vStr (env.markedParse body))) "_slug" (.vStr (fileNameToSlug f)))
    "_path" (.vStr f)

lemma objGet_loadedObject_id (env : Env) (attrs : List (String × Value)) (body f : String)
    (idv : Value) (h : objGet attrs "id" = some idv) :
    objGet (loadedObject env attrs body f) "id" = some idv := by
  simp only [loadedObject]
  rw [objGet_objSet_ne _ _ _ _ (by decide), objGet_objSet_ne _ _ _ _ (by decide),
    objGet_objSet_ne _ _ _ _ (by decide), objGet_objSet_self, h]
  rfl

lemma objGet_loadedObject_other (env : Env) (attrs : List (String × Value)) (body f : String)
    (r : String) (h1 : r ≠ "id") (h2 : r ≠ "_html") (h3 : r ≠ "_slug") (h4 : r ≠ "_path") :
    objGet (loadedObject env attrs body f) r = objGet attrs r := by
  simp only [loadedObject]
  rw [objGet_objSet_ne _ _ _ _ h4, objGet_objSet_ne _ _ _ _ h3,
    objGet_objSet_ne _ _ _ _ h2, objGet_objSet_ne _ _ _ _ h1]

lemma getCachedObjectById_none (s : DBState) (ty : String) (idv : Value)
    (h : listGet s.cacheById (ty ++ "-" ++ jsToString idv) = none) :
    getCachedObjectById s ty idv = (none, s) := by
  simp only [getCachedObjectById, h]

lemma getFilesForType_fresh (env : Env) (s : DBState) (ty : String) (ot : ObjectType)
    (files : List String)
    (hot : listGet s.objectTypes ty = some ot)
    (hmemo : listGet s.filenameCache ty = none)
    (hglob : env.globFiles (pathJoin (pathJoin env.baseDir ot.dirName) "**/*.md") = files) :
    getFilesForType env s ty =
      (.ok files, { s with filenameCache := listSet s.filenameCache ty files }) := by
  simp only [getFilesForType, hot, hmemo, hglob]

lemma getFilesForType_memo (env : Env) (s : DBState) (ty : String) (ot : ObjectType)
    (files : List String)
    (hot : listGet s.objectTypes ty = some ot)
    (hmemo : listGet s.filenameCache ty = some files) :
    getFilesForType env s ty = (.ok files, s) := by
  simp only [getFilesForType, hot, hmemo]

/-- A fresh (cache-missing) load that validates, has a truthy id, and whose
hydration completes, returns the hydrated object and caches it. -/
lemma getByFile_fresh (env : Env) (fuel : Nat) (s : DBState) (ty f c : String)
    (ot : ObjectType) (attrs : List (String × Value)) (body : String) (idv : Value)
    (obj1 : ParsedObject) (s2 : DBState)
    (hmiss : (lruGet s.cacheByFile f).1 = none)
    (hot : listGet s.objectTypes ty = some ot)
    (hfs : env.fs f = some c)
    (hfm : env.frontMatterF c = (attrs, body))
    (hval : validationErrors ot.schema attrs = [])
    (hid : objGet attrs "id" = some idv)
    (htr : idv.truthy = true)
    (hhyd : hydrateRelations env fuel s ty (loadedObject env attrs body f) = (.ok obj1, s2)) :
    getByFile env (fuel + 1) s ty f =
      (.ok obj1, { s2 with cacheByFile := lruSet env.maxCacheSize s2.cacheByFile f obj1 }) := by
  simp only [loadedObject, hid, Option.getD_some] at hhyd
  simp only [getByFile, getCachedObjectByFile, lruGet_of_fst_none _ _ hmiss, hot, hfs, hfm,
    hval, hid, Option.getD_some, htr, Bool.not_true, Bool.false_eq_true, if_false, hhyd]

lemma hydrateRelations_enter (env : Env) (fuel : Nat) (s : DBState) (ty : String)
    (obj : ParsedObject) (ot : ObjectType) (key : String)
    (hot : listGet s.objectTypes ty = some ot)
    (hkey : ty ++ "-" ++ jsToString ((objGet obj "id").getD .vNull) = key)
    (hmem : s.objsInHydration.contains key = false) :
    hydrateRelations env (fuel + 1) s ty obj =
      hydrateRelLoop env fuel { s with objsInHydration := s.objsInHydration ++ [key] }
        obj ot.relations := by
  subst hkey
  simp only [hydrateRelations, hot, hmem, Bool.false_eq_true, if_false]

lemma hydrateRelations_short (env : Env) (fuel : Nat) (s : DBState) (ty : String)
    (obj : ParsedObject) (ot : ObjectType) (key : String)
    (hot : listGet s.objectTypes ty = some ot)
    (hkey : ty ++ "-" ++ jsToString ((objGet obj "id").getD .vNull) = key)
    (hmem : s.objsInHydration.contains key = true) :
    hydrateRelations env (fuel + 1) s ty obj = (.ok obj, s) := by
  subst hkey
  simp only [hydrateRelations, hot, hmem, if_true]

/-- The raw reference value a relation field holds before hydration: a
single id for HasOne, a one-element id array for HasMany. -/
def relRefValue (kind : String) (idv : Value) : Value :=
  if kind == hasManyKind then .vArr [idv] else idv

/-- The hydrated value of that relation field: the embedded object, wrapped
in a one-element array for HasMany. -/
def relEmbedValue (kind : String) (o : ParsedObject) : Value :=
  if kind == hasManyKind then .vArr [.vObj o] else .vObj o

/-- Hydrating a single declared relation whose field holds a reference to an
object that `findById` resolves: the field is replaced by the embedded
object.  The two findById hypotheses at adjacent fuels cover the two fuel
paths of the HasOne and HasMany branches. -/
lemma hydrateRelLoop_single (env : Env) (h : Nat) (s : DBState) (obj : ParsedObject)
    (r : String) (rel : Relation) (idv : Value) (o : ParsedObject) (s' : DBState)
    (hkind : rel.relType = hasManyKind ∨ rel.relType = hasOneKind)
    (hval : objGet obj r = some (relRefValue rel.relType idv))
    (htr : (relRefValue rel.relType idv).truthy = true)
    (hfind1 : findById env (h + 1) s rel.objType idv = (.ok o, s'))
    (hfind2 : findById env (h + 2) s rel.objType idv = (.ok o, s')) :
    hydrateRelLoop env (h + 3) s obj [(r, rel)] =
      (.ok (objSet obj r (relEmbedValue rel.relType o)), s') := by
  rcases hkind with hk | hk
  · simp only [relRefValue, relEmbedValue, hk, beq_self_eq_true, if_true] at hval htr ⊢
    simp only [hydrateRelLoop, hval, Option.getD_some, Value.truthy, Bool.not_true,
      Bool.false_eq_true, if_false, hk, beq_self_eq_true, if_true, hydrateManyLoop, hfind1]
  · have hne : (hasOneKind == hasManyKind) = false := by decide
    simp only [relRefValue, relEmbedValue, hk, hne, Bool.false_eq_true, if_false] at hval htr ⊢
    simp only [hydrateRelLoop, hval, Option.getD_some, htr, Bool.not_true,
      Bool.false_eq_true, if_false, hk, hne, beq_self_eq_true, if_true, hfind2]

lemma findByIdScan_single_hit (env : Env) (fuel : Nat) (s : DBState) (ty : String)
    (idv : Value) (f : String) (obj : ParsedObject) (s' : DBState)
    (hget : getByFile env fuel s ty f = (.ok obj, s'))
    (hmatch : strictEq ((objGet obj "id").getD .vNull) idv = true) :
    findByIdScan env (fuel + 1) s ty idv [f] = (.ok (some obj), s') := by
  simp only [findByIdScan, hget, hmatch, if_true]

lemma findById_scan_path (env : Env) (fuel : Nat) (s : DBState) (ty : String) (idv : Value)
    (files : List String) (obj : ParsedObject) (s1 s2 : DBState)
    (hkey : listGet s.cacheById (ty ++ "-" ++ jsToString idv) = none)
    (hfiles : getFilesForType env s ty = (.ok files, s1))
    (hscan : findByIdScan env fuel s1 ty idv files = (.ok (some obj), s2)) :
    findById env (fuel + 1) s ty idv = (.ok obj, s2) := by
  simp only [findById, getCachedObjectById_none s ty idv hkey, hfiles, hscan]

/-- C5: for every cyclic relation graph — arbitrary environment and store
state in which a type `a` object (id `ia`, file `fa`) declares a relation
`ra` referencing the type `b` object (id `ib`, file `fb`), whose relation
`rb` references the same type `a` object back, with either relation HasOne
or HasMany — fetching the `a` object by id completes at every fuel of the
form `g + 18` (no unbounded recursion), the relation `ra` of the returned
object and the relation `rb` of the embedded `b` object are resolved to
embedded objects, and the `a` copy whose hydration triggered the re-entry
(embedded under `rb`) still exposes the unresolved raw id(s) under `ra`,
the relation that closes the cycle. -/
theorem cyclic_hydration_terminates_exposing_raw_ids (env : Env) (s0 : DBState)
    (a b ra rb fa fb ca cb bodyA bodyB : String)
    (attrsA attrsB : List (String × Value)) (ia ib : Value) (otA otB : ObjectType)
    (ka kb : String) (reqA reqB : Bool)
    (obj0A obj0B objB1 objA1 : ParsedObject)
    (hotA : listGet s0.objectTypes a = some otA)
    (hotB : listGet s0.objectTypes b = some otB)
    (hrelA : otA.relations = [(ra, ⟨ka, b, reqA⟩)])
    (hrelB : otB.relations = [(rb, ⟨kb, a, reqB⟩)])
    (hkaK : ka = hasManyKind ∨ ka = hasOneKind)
    (hkbK : kb = hasManyKind ∨ kb = hasOneKind)
    (hab : a ≠ b)
    (hcidA : listGet s0.cacheById (a ++ "-" ++ jsToString ia) = none)
    (hcidB : listGet s0.cacheById (b ++ "-" ++ jsToString ib) = none)
    (hfcA : listGet s0.filenameCache a = none)
    (hfcB : listGet s0.filenameCache b = none)
    (hcfA : (lruGet s0.cacheByFile fa).1 = none)
    (hcfB : (lruGet s0.cacheByFile fb).1 = none)
    (hhydA : s0.objsInHydration.contains (a ++ "-" ++ jsToString ia) = false)
    (hhydB : s0.objsInHydration.contains (b ++ "-" ++ jsToString ib) = false)
    (hkeyne : b ++ "-" ++ jsToString ib ≠ a ++ "-" ++ jsToString ia)
    (hglobA : env.globFiles (pathJoin (pathJoin env.baseDir otA.dirName) "**/*.md") = [fa])
    (hglobB : env.globFiles (pathJoin (pathJoin env.baseDir otB.dirName) "**/*.md") = [fb])
    (hfsA : env.fs fa = some ca)
    (hfsB : env.fs fb = some cb)
    (hfmA : env.frontMatterF ca = (attrsA, bodyA))
    (hfmB : env.frontMatterF cb = (attrsB, bodyB))
    (hvalA : validationErrors otA.schema attrsA = [])
    (hvalB : validationErrors otB.schema attrsB = [])
    (hidA : objGet attrsA "id" = some ia)
    (hidB : objGet attrsB "id" = some ib)
    (htrA : ia.truthy = true)
    (htrB : ib.truthy = true)
    (hseA : strictEq ia ia = true)
    (hseB : strictEq ib ib = true)
    (hrefA : objGet attrsA ra = some (relRefValue ka ib))
    (hrefB : objGet attrsB rb = some (relRefValue kb ia))
    (hraid : ra ≠ "id") (hrahtml : ra ≠ "_html") (hraslug : ra ≠ "_slug") (hrapath : ra ≠ "_path")
    (hrbid : rb ≠ "id") (hrbhtml : rb ≠ "_html") (hrbslug : rb ≠ "_slug") (hrbpath : rb ≠ "_path")
    (hO0A : obj0A = loadedObject env attrsA bodyA fa)
    (hO0B : obj0B = loadedObject env attrsB bodyB fb)
    (hOB1 : objB1 = objSet obj0B rb (relEmbedValue kb obj0A))
    (hOA1 : objA1 = objSet obj0A ra (relEmbedValue ka objB1)) :
    (∀ g, (findById env (g + 18) s0 a ia).1 = .ok objA1) ∧
    objGet objA1 ra = some (relEmbedValue ka objB1) ∧
    objGet objB1 rb = some (relEmbedValue kb obj0A) ∧
    objGet obj0A ra = some (relRefValue ka ib) := by
  subst hO0A
  subst hO0B
  subst hOB1
  subst hOA1
  set A0 := loadedObject env attrsA bodyA fa with hA0
  set B0 := loadedObject env attrsB bodyB fb with hB0
  set B1 := objSet B0 rb (relEmbedValue kb A0) with hB1
  set A1 := objSet A0 ra (relEmbedValue ka B1) with hA1
  set keyA := a ++ "-" ++ jsToString ia with hkA
  set keyB := b ++ "-" ++ jsToString ib with hkB
  -- facts about the assembled objects
  have hid0A : objGet A0 "id" = some ia := by
    rw [hA0]; exact objGet_loadedObject_id env attrsA bodyA fa ia hidA
  have hid0B : objGet B0 "id" = some ib := by
    rw [hB0]; exact objGet_loadedObject_id env attrsB bodyB fb ib hidB
  have href0A : objGet A0 ra = some (relRefValue ka ib) := by
    rw [hA0, objGet_loadedObject_other env attrsA bodyA fa ra hraid hrahtml hraslug hrapath]
    exact hrefA
  have href0B : objGet B0 rb = some (relRefValue kb ia) := by
    rw [hB0, objGet_loadedObject_other env attrsB bodyB fb rb hrbid hrbhtml hrbslug hrbpath]
    exact hrefB
  have htrRefA : (relRefValue ka ib).truthy = true := by
    rcases hkaK with h | h
    · simp [relRefValue, h, Value.truthy]
    · simpa [relRefValue, h, hasOneKind, hasManyKind] using htrB
  have htrRefB : (relRefValue kb ia).truthy = true := by
    rcases hkbK with h | h
    · simp [relRefValue, h, Value.truthy]
    · simpa [relRefValue, h, hasOneKind, hasManyKind] using htrA
  have hidB1 : objGet B1 "id" = some ib := by
    rw [hB1, objGet_objSet_ne _ _ _ _ (Ne.symm hrbid)]
    exact hid0B
  have hidA1 : objGet A1 "id" = some ia := by
    rw [hA1, objGet_objSet_ne _ _ _ _ (Ne.symm hraid)]
    exact hid0A
  have hmatchA0 : strictEq ((objGet A0 "id").getD .vNull) ia = true := by
    rw [hid0A]; exact hseA
  have hmatchB1 : strictEq ((objGet B1 "id").getD .vNull) ib = true := by
    rw [hidB1]; exact hseB
  have hmatchA1 : strictEq ((objGet A1 "id").getD .vNull) ia = true := by
    rw [hidA1]; exact hseA
  have keyeqA : a ++ "-" ++ jsToString ((objGet A0 "id").getD .vNull) = keyA := by
    rw [hid0A]; rfl
  have keyeqB : b ++ "-" ++ jsToString ((objGet B0 "id").getD .vNull) = keyB := by
    rw [hid0B]; rfl
  -- membership facts for the hydration guard
  have hnotmemB : keyB ∉ s0.objsInHydration := by
    simpa [contains_eq_decide_mem] using hhydB
  have hmemS3B : (s0.objsInHydration ++ [keyA]).contains keyB = false := by
    simp [contains_eq_decide_mem, List.mem_append, hnotmemB, hkeyne]
  have hmemS4A : ((s0.objsInHydration ++ [keyA]) ++ [keyB]).contains keyA = true := by
    simp [contains_eq_decide_mem, List.mem_append]
  -- memoized file lists at intermediate states
  have hfc2b : listGet (listSet s0.filenameCache a [fa]) b = none := by
    rw [listGet_listSet_ne _ _ _ _ (Ne.symm hab)]; exact hfcB
  have hfc4a : listGet (listSet (listSet s0.filenameCache a [fa]) b [fb]) a = some [fa] := by
    rw [listGet_listSet_ne _ _ _ _ hab, listGet_listSet_self]
  -- the intermediate states of the trace
  let S1 : DBState := { s0 with filenameCache := listSet s0.filenameCache a [fa] }
  let S2 : DBState := { S1 with objsInHydration := s0.objsInHydration ++ [keyA] }
  let S3 : DBState := { S2 with filenameCache := listSet (listSet s0.filenameCache a [fa]) b [fb] }
  let S4 : DBState := { S3 with objsInHydration := (s0.objsInHydration ++ [keyA]) ++ [keyB] }
  let C1 : LRU := lruSet env.maxCacheSize s0.cacheByFile fa A0
  let C2 : LRU := lruSet env.maxCacheSize C1 fb B1
  let C3 : LRU := lruSet env.maxCacheSize C2 fa A1
  let S5 : DBState := { S4 with cacheByFile := C1 }
  let S6 : DBState := { S4 with cacheByFile := C2 }
  let S7 : DBState := { S4 with cacheByFile := C3 }
  -- the re-entrant chain: loading type a's file again while its key is in
  -- the hydration guard returns the raw assembled object
  have hydShort : ∀ m, hydrateRelations env (m + 1) S4 a A0 = (.ok A0, S4) := by
    intro m
    exact hydrateRelations_short env m S4 a A0 otA keyA hotA keyeqA hmemS4A
  have getInner : ∀ m, getByFile env (m + 2) S4 a fa = (.ok A0, S5) := by
    intro m
    exact getByFile_fresh env (m + 1) S4 a fa ca otA attrsA bodyA ia A0 S4
      hcfA hotA hfsA hfmA hvalA hidA htrA (hydShort m)
  have scanInner : ∀ m, findByIdScan env (m + 3) S4 a ia [fa] = (.ok (some A0), S5) := by
    intro m
    exact findByIdScan_single_hit env (m + 2) S4 a ia fa A0 S5 (getInner m) hmatchA0
  have innerFind : ∀ m, findById env (m + 4) S4 a ia = (.ok A0, S5) := by
    intro m
    exact findById_scan_path env (m + 3) S4 a ia [fa] A0 S4 S5 hcidA
      (getFilesForType_memo env S4 a otA [fa] hotA hfc4a) (scanInner m)
  -- hydrating type b's object resolves its back reference to the raw copy
  have relLoopB : ∀ m, hydrateRelLoop env (m + 7) S4 B0 [(rb, ⟨kb, a, reqB⟩)] =
      (.ok B1, S5) := by
    intro m
    exact hydrateRelLoop_single env (m + 4) S4 B0 rb ⟨kb, a, reqB⟩ ia A0 S5
      hkbK href0B htrRefB (innerFind (m + 1)) (innerFind (m + 2))
  have hydB : ∀ m, hydrateRelations env (m + 8) S3 b B0 = (.ok B1, S5) := by
    intro m
    have e1 := hydrateRelations_enter env (m + 7) S3 b B0 otB keyB hotB keyeqB hmemS3B
    rw [hrelB] at e1
    exact e1.trans (relLoopB m)
  have getB : ∀ m, getByFile env (m + 9) S3 b fb = (.ok B1, S6) := by
    intro m
    exact getByFile_fresh env (m + 8) S3 b fb cb otB attrsB bodyB ib B1 S5
      hcfB hotB hfsB hfmB hvalB hidB htrB (hydB m)
  have scanB : ∀ m, findByIdScan env (m + 10) S3 b ib [fb] = (.ok (some B1), S6) := by
    intro m
    exact findByIdScan_single_hit env (m + 9) S3 b ib fb B1 S6 (getB m) hmatchB1
  have findB : ∀ m, findById env (m + 11) S2 b ib = (.ok B1, S6) := by
    intro m
    exact findById_scan_path env (m + 10) S2 b ib [fb] B1 S3 S6 hcidB
      (getFilesForType_fresh env S2 b otB [fb] hotB hfc2b hglobB) (scanB m)
  -- hydrating type a's object resolves its relation to the embedded b object
  have relLoopA : ∀ m, hydrateRelLoop env (m + 14) S2 A0 [(ra, ⟨ka, b, reqA⟩)] =
      (.ok A1, S6) := by
    intro m
    exact hydrateRelLoop_single env (m + 11) S2 A0 ra ⟨ka, b, reqA⟩ ib B1 S6
      hkaK href0A htrRefA (findB (m + 1)) (findB (m + 2))
  have hydA : ∀ m, hydrateRelations env (m + 15) S1 a A0 = (.ok A1, S6) := by
    intro m
    have e1 := hydrateRelations_enter env (m + 14) S1 a A0 otA keyA hotA keyeqA hhydA
    rw [hrelA] at e1
    exact e1.trans (relLoopA m)
  have getA : ∀ m, getByFile env (m + 16) S1 a fa = (.ok A1, S7) := by
    intro m
    exact getByFile_fresh env (m + 15) S1 a fa ca otA attrsA bodyA ia A1 S6
      hcfA hotA hfsA hfmA hvalA hidA htrA (hydA m)
  have scanA : ∀ m, findByIdScan env (m + 17) S1 a ia [fa] = (.ok (some A1), S7) := by
    intro m
    exact findByIdScan_single_hit env (m + 16) S1 a ia fa A1 S7 (getA m) hmatchA1
  have findA : ∀ g, findById env (g + 18) s0 a ia = (.ok A1, S7) := by
    intro g
    exact findById_scan_path env (g + 17) s0 a ia [fa] A1 S1 S7 hcidA
      (getFilesForType_fresh env s0 a otA [fa] hotA hfcA hglobA) (scanA g)
  refine ⟨fun g => by rw [findA g], ?_, ?_, ?_⟩
  · rw [hA1]; exact objGet_objSet_self _ _ _
  · rw [hB1]; exact objGet_objSet_self _ _ _
  · exact href0A

/-- C5 witness: the article/author fixture instantiates the cyclic graph;
fetching author 1 at fuel 18 yields the hydrated author whose embedded
article embeds an author copy with the raw id list. -/
theorem cyclic_hydration_terminates_exposing_raw_ids_witness :
    (findById fixtureEnv 18 fixtureDB "author" (.vInt 1)).1 = .ok hydratedAuthorObj ∧
    objGet hydratedAuthorObj "articles" = some (.vArr [.vObj hydratedArticleObj]) ∧
    objGet hydratedArticleObj "author" = some (.vObj rawAuthorObj) ∧
    objGet rawAuthorObj "articles" = some (.vArr [.vInt 1]) := by
  have h := cyclic_hydration_terminates_exposing_raw_ids fixtureEnv fixtureDB "author" "article" "articles" "author"
    authorFile articleFile "UF" "AF" "ubody" "abody"
    [("name", .vStr "Jonathan Lipps"), ("id", .vInt 1), ("articles", .vArr [.vInt 1])]
    [("title", .vStr "A Really Great Article"), ("id", .vInt 1), ("author", .vInt 1)]
    (.vInt 1) (.vInt 1) _ _ hasManyKind hasOneKind true true
    rawAuthorObj rawArticleObj hydratedArticleObj hydratedAuthorObj
    rfl rfl rfl rfl (Or.inl rfl) (Or.inr rfl) (by decide)
    rfl rfl rfl rfl rfl rfl rfl rfl (by decide)
    rfl rfl rfl rfl rfl rfl rfl rfl rfl rfl rfl rfl rfl rfl rfl rfl
    (by decide) (by decide) (by decide) (by decide)
    (by decide) (by decide) (by decide) (by decide)
    rfl rfl rfl rfl
  exact ⟨h.1 0, h.2.1, h.2.2.1, h.2.2.2⟩


end MdDb
